import Mathlib

/-
Verification of the Snap repository against its natural-language
specification.

The repository contains two simulators:
* `src/JoshuaSnapSim` — the RL-oriented engine (`game_state.py`,
  `game_engine.py`, `ability_resolver.py`, `action_manager.py`); embedded
  below in namespace `Snap`.
* `src/Marvel-snap-simulator-main` — the search-oriented simulator
  (`simulator.py`, `ai.py`); embedded below in namespace `MSim`.

Python objects are embedded as immutable Lean structures.  In-place
mutation of a shared Python object is modelled by threading the state;
Python object identity (the `is` operator) is modelled by a ghost
instance-id field `iid` on each card, drawn from a ghost allocator
`next_iid` carried in the game state (Python's heap allocator guarantees
the ids of live objects are distinct).  A Python exception escaping a
method is modelled by `Except GameState GameState`, whose `error` value
carries the state as the raising code left it (CPython mutates
`self.game_state` in place, so the caller observes those mutations even
when the call raises).
-/

namespace Snap

/-- Static card definition, from `card_data.py` (`CardDefinition`). -/
structure CardDefinition where
  name : String
  cost : Int
  power : Int
  ability : Option String := none
deriving DecidableEq

/-- The card catalog `CARD_DEFINITIONS` from `card_data.py`. -/
def CARD_DEFINITIONS : String → Option CardDefinition
  | "abomination" => some ⟨"Abomination", 5, 9, none⟩
  | "cyclops" => some ⟨"Cyclops", 3, 4, none⟩
  | "hulk" => some ⟨"Hulk", 6, 12, none⟩
  | "misty_knight" => some ⟨"Misty Knight", 1, 2, none⟩
  | "shocker" => some ⟨"Shocker", 2, 3, none⟩
  | "the_thing" => some ⟨"The Thing", 4, 6, none⟩
  | "wasp" => some ⟨"Wasp", 0, 1, none⟩
  | "carnage" => some ⟨"Carnage", 2, 2,
      some "On Reveal: Destroy your other cards here. +2 Power for each card destroyed."⟩
  | "hawkeye" => some ⟨"Hawkeye", 1, 1,
      some "On Reveal: If you play a card here next turn, +2 Power."⟩
  | "medusa" => some ⟨"Medusa", 2, 2,
      some "On Reveal: If this is at the middle location, +2 Power."⟩
  | "sentinel" => some ⟨"Sentinel", 2, 3,
      some "On Reveal: Add another Sentinel to your hand."⟩
  | "star_lord" => some ⟨"Star-Lord", 2, 2,
      some "On Reveal: If your opponent played a card here this turn, +3 Power."⟩
  | "white_queen" => some ⟨"White Queen", 4, 6,
      some "On Reveal: Draw a copy of the highest Cost card in your opponent's hand."⟩
  | "ant_man" => some ⟨"Ant-Man", 1, 1,
      some "Ongoing: If you have 3 other cards here, +3 Power."⟩
  | "captain_america" => some ⟨"Captain America", 3, 3,
      some "Ongoing: Your other cards at this location have +1 Power."⟩
  | "iron_man" => some ⟨"Iron Man", 5, 0,
      some "Ongoing: Your total Power is doubled at this Location."⟩
  | "klaw" => some ⟨"Klaw", 5, 4,
      some "Ongoing: The location to the right has +6 Power."⟩
  | "mr_fantastic" => some ⟨"Mr. Fantastic", 3, 2,
      some "Ongoing: Adjacent locations have +2 Power."⟩
  | _ => none

/-- A card instance, from `game_state.py` (`Card`).  The extra field
`iid` is a ghost instance id modelling Python object identity; it has no
counterpart in the dataclass. -/
structure Card where
  iid : Nat
  card_id : String
  base_cost : Int
  base_power : Int
  current_cost : Int
  current_power : Int
  is_revealed : Bool := false
  ability_used : Bool := false
  owner : Nat := 0
  location : Option Nat := none
deriving DecidableEq

/-- Placeholder card used as the default of total list lookups; every
lookup performed by a theorem below is within bounds. -/
def no_card : Card :=
  { iid := 0, card_id := "", base_cost := 0, base_power := 0,
    current_cost := 0, current_power := 0 }

/-- A board location, from `game_state.py` (`Location`).  The Python
field `cards` is a two-element list indexed by player id; it is split
into `cards0` and `cards1`. -/
structure Location where
  location_id : String
  cards0 : List Card := []
  cards1 : List Card := []
  is_revealed : Bool := false
deriving DecidableEq

/-- Python `location.cards[p]`.  The source only ever indexes with a
player id 0 or 1. -/
def Location.cards (loc : Location) (p : Nat) : List Card :=
  if p = 0 then loc.cards0 else loc.cards1

/-- In-place assignment `location.cards[p] = cs`. -/
def Location.set_cards (loc : Location) (p : Nat) (cs : List Card) : Location :=
  if p = 0 then { loc with cards0 := cs } else { loc with cards1 := cs }

/-- A player, from `game_state.py` (`Player`). -/
structure Player where
  player_id : Nat
  energy : Int := 0
  deck : List Card := []
  hand : List Card := []
  discard : List Card := []
  has_priority : Bool := false
deriving DecidableEq

/-- `Player.draw_card` from `game_state.py`: move the top deck card to
the hand unless the deck is empty or the hand holds 7 cards. -/
def Player.draw_card (p : Player) : Player :=
  match p.deck with
  | [] => p
  | c :: rest =>
    if p.hand.length < 7 then { p with deck := rest, hand := p.hand ++ [c] } else p

/-- The whole game state, from `game_state.py` (`GameState`).  The
Python field `players` is a two-element list, split into `player0` and
`player1`; `winner` is `None` until `end_game` stores 0, 1 or -1.
`next_iid` is the ghost instance-id allocator (see the file comment). -/
structure GameState where
  turn : Int := 1
  player0 : Player
  player1 : Player
  locations : List Location
  game_over : Bool := false
  winner : Option Int := none
  next_iid : Nat := 0
deriving DecidableEq

/-- `GameState.get_player`: Python `self.players[player_id]`, only ever
called with id 0 or 1. -/
def GameState.get_player (s : GameState) (pid : Nat) : Player :=
  if pid = 0 then s.player0 else s.player1

/-- In-place assignment `state.players[pid] = p`. -/
def GameState.set_player (s : GameState) (pid : Nat) (p : Player) : GameState :=
  if pid = 0 then { s with player0 := p } else { s with player1 := p }

/-- All cards currently in play, in the iteration order of
`apply_ongoing_effects`: location position ascending, player 0 before
player 1, then slot order. -/
def in_play_cards (locs : List Location) : List Card :=
  locs.foldr (fun loc acc => loc.cards0 ++ loc.cards1 ++ acc) []

/-- Dereference a Python card object held elsewhere: look the card up by
its ghost instance id across every zone of the state. -/
def GameState.findCard (s : GameState) (iid : Nat) : Option Card :=
  (in_play_cards s.locations
    ++ s.player0.hand ++ s.player0.deck ++ s.player0.discard
    ++ s.player1.hand ++ s.player1.deck ++ s.player1.discard).find?
    (fun c => c.iid == iid)

/-- Mutate a Python card object in place: apply `f` to the card with the
given instance id, wherever it lives. -/
def GameState.updateCard (s : GameState) (iid : Nat) (f : Card → Card) : GameState :=
  let g : Card → Card := fun c => if c.iid = iid then f c else c
  { s with
    locations := s.locations.map (fun loc =>
      { loc with cards0 := loc.cards0.map g, cards1 := loc.cards1.map g }),
    player0 := { s.player0 with
                 hand := s.player0.hand.map g,
                 deck := s.player0.deck.map g,
                 discard := s.player0.discard.map g },
    player1 := { s.player1 with
                 hand := s.player1.hand.map g,
                 deck := s.player1.deck.map g,
                 discard := s.player1.discard.map g } }

/-- `GameEngine.create_card_instance` from `game_engine.py`.  An unknown
card id raises `KeyError` in Python; every id used below is in the
catalog, so the total default is never read. -/
def create_card_instance (card_id : String) (owner : Nat) (iid : Nat) : Card :=
  let d := (CARD_DEFINITIONS card_id).getD ⟨card_id, 0, 0, none⟩
  { iid := iid, card_id := card_id, base_cost := d.cost, base_power := d.power,
    current_cost := d.cost, current_power := d.power, owner := owner }

/-- `GameEngine.setup_game` from `game_engine.py`.  The random choices
(`random.shuffle` of each deck, `random.sample` of three location ids,
`random.randint` for priority) are passed in as parameters: the deck
lists are taken already in their shuffled order, `loc_ids` is the sampled
location triple and `prio` the player receiving priority.
`apply_start_of_game_effects` is a `pass` in the source. -/
def setup_game (deck0_ids deck1_ids : List String) (loc_ids : List String)
    (prio : Nat) : GameState :=
  let deck0 := deck0_ids.enum.map (fun pr => create_card_instance pr.2 0 pr.1)
  let deck1 := deck1_ids.enum.map
    (fun pr => create_card_instance pr.2 1 (deck0_ids.length + pr.1))
  let locations := loc_ids.map (fun lid => ({ location_id := lid } : Location))
  let p0 : Player := { player_id := 0, deck := deck0, has_priority := prio = 0 }
  let p1 : Player := { player_id := 1, deck := deck1, has_priority := prio = 1 }
  let p0 := p0.draw_card.draw_card.draw_card
  let p1 := p1.draw_card.draw_card.draw_card
  { turn := 1, player0 := p0, player1 := p1, locations := locations,
    next_iid := deck0_ids.length + deck1_ids.length }

/-- Reset of pass 1 of `AbilityResolver.apply_ongoing_effects`:
`card.current_power = card.base_power`. -/
def reset_card (c : Card) : Card := { c with current_power := c.base_power }

/-- Power reset applied to one location. -/
def reset_loc (loc : Location) : Location :=
  { loc with cards0 := loc.cards0.map reset_card, cards1 := loc.cards1.map reset_card }

/-- The first loop of `apply_ongoing_effects`: reset every in-play
card's power to its base power. -/
def reset_powers (locs : List Location) : List Location := locs.map reset_loc

/-- `AbilityResolver._ongoing_captain_america`: every other card of the
same owner at the captain's recorded location gets +1 power.  `other_card
is not card` is instance-id inequality.  A card whose `location` field is
`None` or out of range would raise in Python; the theorems below only
reach this code with consistent fields. -/
def captain_america_effect (locs : List Location) (card : Card) : List Location :=
  match card.location with
  | none => locs
  | some l =>
    if h : l < locs.length then
      let loc := locs.get ⟨l, h⟩
      locs.set l (loc.set_cards card.owner ((loc.cards card.owner).map
        (fun o => if o.iid = card.iid then o
                  else { o with current_power := o.current_power + 1 })))
    else locs

/-- One step of the second loop of `apply_ongoing_effects`: dispatch on
`ongoing_dispatcher`.  `_ongoing_iron_man` is an explicit `pass` in the
source, so its branch leaves the board unchanged. -/
def ongoing_step (locs : List Location) (card : Card) : List Location :=
  if card.card_id = "captain_america" then captain_america_effect locs card
  else locs

/-- `AbilityResolver.apply_ongoing_effects` restricted to the data it
touches (it reads and writes only the location lists): reset every
in-play power to base, then dispatch each in-play card's ongoing
effect in board order. -/
def ongoing_locations (locs : List Location) : List Location :=
  let locs1 := reset_powers locs
  (in_play_cards locs1).foldl ongoing_step locs1

/-- `AbilityResolver.apply_ongoing_effects` from `ability_resolver.py`. -/
def apply_ongoing_effects (s : GameState) : GameState :=
  { s with locations := ongoing_locations s.locations }

/-- `AbilityResolver._on_reveal_sentinel`: add a fresh Sentinel to the
owner's hand if it holds fewer than 7 cards. -/
def on_reveal_sentinel (s : GameState) (card : Card) : GameState :=
  let player := s.get_player card.owner
  if player.hand.length < 7 then
    let d := (CARD_DEFINITIONS "sentinel").getD ⟨"Sentinel", 2, 3, none⟩
    let new_sentinel : Card :=
      { iid := s.next_iid, card_id := "sentinel", base_cost := d.cost,
        base_power := d.power, current_cost := d.cost, current_power := d.power,
        owner := card.owner }
    let s1 := s.set_player card.owner { player with hand := player.hand ++ [new_sentinel] }
    { s1 with next_iid := s1.next_iid + 1 }
  else s

/-- `AbilityResolver._on_reveal_medusa`: +2 power when the card sits at
the middle location (index 1). -/
def on_reveal_medusa (s : GameState) (card : Card) : GameState :=
  if card.location = some 1 then
    s.updateCard card.iid (fun c => { c with current_power := c.current_power + 2 })
  else s

/-- `AbilityResolver._on_reveal_carnage`: move every other card of the
owner at the card's location to the owner's discard pile and give the
card +2 power per card destroyed. -/
def on_reveal_carnage (s : GameState) (card : Card) : GameState :=
  match card.location with
  | none => s
  | some l =>
    if h : l < s.locations.length then
      let loc := s.locations.get ⟨l, h⟩
      let mine := loc.cards card.owner
      let destroyed := mine.filter (fun c => !(c.iid == card.iid))
      let remaining := mine.filter (fun c => c.iid == card.iid)
      let s1 := { s with locations := s.locations.set l (loc.set_cards card.owner remaining) }
      let player := s1.get_player card.owner
      let s2 := s1.set_player card.owner { player with discard := player.discard ++ destroyed }
      s2.updateCard card.iid
        (fun c => { c with current_power := c.current_power + 2 * (destroyed.length : Int) })
    else s

/-- Membership test of `on_reveal_dispatcher` in `ability_resolver.py`. -/
def has_on_reveal (cid : String) : Bool :=
  cid == "sentinel" || cid == "medusa" || cid == "carnage"

/-- Dispatch through `on_reveal_dispatcher`. -/
def on_reveal_dispatch (s : GameState) (card : Card) : GameState :=
  if card.card_id = "sentinel" then on_reveal_sentinel s card
  else if card.card_id = "medusa" then on_reveal_medusa s card
  else if card.card_id = "carnage" then on_reveal_carnage s card
  else s

/-- One iteration of the loop in
`AbilityResolver.resolve_on_reveal_effects`: dereference the played
card, and when it has an on-reveal entry and does not sit at Knowhere,
run the effect and set `ability_used`. -/
def resolve_one (s : GameState) (iid : Nat) : GameState :=
  match s.findCard iid with
  | none => s
  | some card =>
    if has_on_reveal card.card_id then
      let loc_id := match card.location with
        | some l => (s.locations.getD l { location_id := "" }).location_id
        | none => ""
      if loc_id ≠ "knowhere" then
        let s1 := on_reveal_dispatch s card
        s1.updateCard iid (fun c => { c with ability_used := true })
      else s
    else s

/-- `AbilityResolver.resolve_on_reveal_effects`: walk the played batch in
the given order; for each card with an on-reveal entry, skip it at
Knowhere, otherwise run the effect and set `ability_used`.  The batch
holds instance ids (Python holds object references). -/
def resolve_on_reveal_effects (s : GameState) (batch : List Nat) : GameState :=
  batch.foldl resolve_one s

/-- Stable insertion of a play in front of the first strictly smaller
hand index. -/
def insert_desc (x : Nat × Nat) : List (Nat × Nat) → List (Nat × Nat)
  | [] => [x]
  | y :: ys => if y.1 ≤ x.1 then x :: y :: ys else y :: insert_desc x ys

/-- `sorted(player_plays, key=lambda x: x[0], reverse=True)` in
`GameEngine.process_turn`: a stable sort by hand index, descending. -/
def sort_plays_desc (plays : List (Nat × Nat)) : List (Nat × Nat) :=
  plays.foldr insert_desc []

/-- The play loop of `GameEngine.process_turn` for one player: pop each
card from the hand by index, record its location, append it to the
location's slot list, and append it to the running reveal batch.  A bad
hand index raises `IndexError` on `hand.pop` before anything of this item
is applied; a bad location index raises after the pop, losing the popped
card.  The `error` value carries the state as the exception leaves it. -/
def apply_plays : GameState → Nat → List (Nat × Nat) → List Nat →
    Except GameState (GameState × List Nat)
  | s, _, [], batch => .ok (s, batch)
  | s, pid, (card_idx, loc_idx) :: rest, batch =>
    let player := s.get_player pid
    if h : card_idx < player.hand.length then
      let card := player.hand.get ⟨card_idx, h⟩
      let s1 := s.set_player pid { player with hand := player.hand.eraseIdx card_idx }
      let card := { card with location := some loc_idx }
      if hl : loc_idx < s1.locations.length then
        let loc := s1.locations.get ⟨loc_idx, hl⟩
        let s2 := { s1 with
          locations := s1.locations.set loc_idx
            (loc.set_cards pid (loc.cards pid ++ [card])) }
        apply_plays s2 pid rest (batch ++ [card.iid])
      else .error s1
    else .error s

/-- Python list indexing with the sign convention of
`state.locations[state.turn - 1]`; an index that is still out of range
after wrapping raises, which the theorems below never reach. -/
def py_reveal_location (locs : List Location) (i : Int) : List Location :=
  let n := locs.length
  let j : Int := if i < 0 then i + n else i
  if h : 0 ≤ j ∧ j.toNat < n then
    locs.set j.toNat { locs.get ⟨j.toNat, h.2⟩ with is_revealed := true }
  else locs

/-- The upkeep prefix of `GameEngine.process_turn`: increment the turn
counter, set each player's energy to the new turn number and draw one
card, and reveal the scheduled location while the turn is at most 3. -/
def turn_upkeep (s0 : GameState) : GameState :=
  let s := { s0 with turn := s0.turn + 1 }
  let s := s.set_player 0 (Player.draw_card { s.get_player 0 with energy := s.turn })
  let s := s.set_player 1 (Player.draw_card { s.get_player 1 with energy := s.turn })
  if s.turn ≤ 3 then { s with locations := py_reveal_location s.locations (s.turn - 1) }
  else s

/-- The first half of `GameEngine.process_turn`: the upkeep, then both
players' plays applied (player 0 first), collecting the merged
`all_played_cards` batch. -/
def turn_batch (s0 : GameState) (player0_plays player1_plays : List (Nat × Nat)) :
    Except GameState (GameState × List Nat) :=
  match apply_plays (turn_upkeep s0) 0 (sort_plays_desc player0_plays) [] with
  | .error e => .error e
  | .ok (s1, batch) =>
    match apply_plays s1 1 (sort_plays_desc player1_plays) batch with
    | .error e => .error e
    | .ok (s2, batch2) => .ok (s2, batch2)

/-- `GameEngine.calculate_location_power`: sum of current powers on the
player's side, doubled once per Iron Man there. -/
def calculate_location_power (loc : Location) (pid : Nat) : Int :=
  let power := ((loc.cards pid).map Card.current_power).sum
  let n := ((loc.cards pid).filter (fun c => c.card_id == "iron_man")).length
  if 0 < n then power * 2 ^ n else power

/-- `GameEngine.end_game`: set `game_over`, rerun the ongoing pass, count
locations won per player, and store the winner (0, 1, or -1 for a draw),
breaking a location tie by total power. -/
def end_game (s0 : GameState) : GameState :=
  let s := apply_ongoing_effects { s0 with game_over := true }
  let player0_wins := (s.locations.filter
    (fun loc => decide (calculate_location_power loc 1 < calculate_location_power loc 0))).length
  let player1_wins := (s.locations.filter
    (fun loc => decide (calculate_location_power loc 0 < calculate_location_power loc 1))).length
  if player1_wins < player0_wins then { s with winner := some 0 }
  else if player0_wins < player1_wins then { s with winner := some 1 }
  else
    let p0_total := (s.locations.map (fun loc => calculate_location_power loc 0)).sum
    let p1_total := (s.locations.map (fun loc => calculate_location_power loc 1)).sum
    if p1_total < p0_total then { s with winner := some 0 }
    else if p0_total < p1_total then { s with winner := some 1 }
    else { s with winner := some (-1) }

/-- `GameEngine.process_turn` from `game_engine.py`: advance the turn,
apply the plays, resolve on-reveal effects on the merged batch, rerun the
ongoing pass, and finish the game once the turn counter has reached 6. -/
def process_turn (s0 : GameState) (player0_plays player1_plays : List (Nat × Nat)) :
    Except GameState GameState :=
  match turn_batch s0 player0_plays player1_plays with
  | .error e => .error e
  | .ok (s, batch) =>
    let s := resolve_on_reveal_effects s batch
    let s := apply_ongoing_effects s
    if 6 ≤ s.turn then .ok (end_game s) else .ok s

/-- Unwrap an `ok` engine result; the default is never read in the
concrete runs below, all of which succeed. -/
def exOk (e : Except GameState GameState) (d : GameState) : GameState :=
  match e with
  | .ok s => s
  | .error _ => d

/-- Unwrap an `error` engine result (the state at the uncaught raise);
the default is never read in the concrete runs below. -/
def exErr (e : Except GameState GameState) (d : GameState) : GameState :=
  match e with
  | .ok _ => d
  | .error s => s

/-- The player's list of cards at location index `l`, read through the
same total lookups the theorems use; out-of-range indices yield the
empty side of a dummy location. -/
def side_at (L : List Location) (l p : Nat) : List Card :=
  (L.getD l { location_id := "" }).cards p

/-- Game outcome as the specification states it. -/
inductive Outcome
  | p0
  | p1
  | draw
deriving DecidableEq

/-- The encoding `end_game` stores in `GameState.winner`: player id, or
-1 for a draw. -/
def Outcome.code : Outcome → Int
  | .p0 => 0
  | .p1 => 1
  | .draw => -1

/-- Spec 4.4: a player wins a location iff their power sum there is
strictly greater than the opponent's. -/
def wins_location (loc : Location) (pid : Nat) : Bool :=
  decide (calculate_location_power loc (1 - pid) < calculate_location_power loc pid)

/-- Number of locations won by a player. -/
def locations_won (locs : List Location) (pid : Nat) : Nat :=
  locs.countP (fun loc => wins_location loc pid)

/-- A player's power summed across all locations. -/
def total_power (locs : List Location) (pid : Nat) : Int :=
  (locs.map (fun loc => calculate_location_power loc pid)).sum

/-- The win rule as the specification words it (spec 4.4): more won
locations wins; a tie is broken by total power; a remaining tie is a
draw.  Stated over the scored locations; compared below against the
winner `end_game` computes. -/
def spec_outcome (locs : List Location) : Outcome :=
  if locations_won locs 1 < locations_won locs 0 then .p0
  else if locations_won locs 0 < locations_won locs 1 then .p1
  else if total_power locs 1 < total_power locs 0 then .p0
  else if total_power locs 0 < total_power locs 1 then .p1
  else .draw

/-- Does an in-play card with these fields direct its Captain America
bonus at side `p` of location `l`?  Mirrors the dispatch condition of
`ongoing_step` plus the side selected by `_ongoing_captain_america`. -/
def targets_side (c : Card) (l p : Nat) : Prop :=
  c.card_id = "captain_america" ∧ c.location = some l ∧ ((c.owner = 0) ↔ (p = 0))

instance (c : Card) (l p : Nat) : Decidable (targets_side c l p) := by
  unfold targets_side
  infer_instance

/-- Number of cards in `cs` whose ongoing effect grants +1 power to a
card with instance id `iid` sitting on side `p` of location `l`. -/
def captain_count (cs : List Card) (l p : Nat) (iid : Nat) : Nat :=
  cs.countP (fun c => decide (targets_side c l p ∧ c.iid ≠ iid))

/-- Add `n` power to a card. -/
def bump_power (n : Nat) (c : Card) : Card :=
  { c with current_power := c.current_power + (n : Int) }

/- Concrete states used by the counterexample and code-bug runs.  All
instance ids are distinct within each state, as Python object identity
guarantees. -/

/-- Three effect-free board locations. -/
def three_locations : List Location :=
  [{ location_id := "ruins" }, { location_id := "xandar" }, { location_id := "new_york" }]

/-- Turn-1 state whose player 0 holds only Hulk (cost 6). -/
def S2 : GameState :=
  { turn := 1,
    player0 := { player_id := 0, hand := [create_card_instance "hulk" 0 0] },
    player1 := { player_id := 1 },
    locations := three_locations,
    next_iid := 1 }

/-- The state `process_turn` leaves for the Hulk run. -/
def R2 : GameState := exOk (process_turn S2 [(0, 0)] []) S2

/-- Turn-1 state whose player 0 holds Misty Knight and player 1 holds
nothing. -/
def S3 : GameState :=
  { turn := 1,
    player0 := { player_id := 0, hand := [create_card_instance "misty_knight" 0 0] },
    player1 := { player_id := 1 },
    locations := three_locations,
    next_iid := 1 }

/-- The state the engine has mutated up to the uncaught `IndexError`
when player 1 submits hand index 3 with an empty hand. -/
def E3 : GameState := exErr (process_turn S3 [(0, 0)] [(3, 1)]) S3

/-- Turn-1 state in which player 1 holds priority, player 0 holds Misty
Knight (iid 10) and Shocker (iid 11), and player 1 holds Cyclops
(iid 20). -/
def S4 : GameState :=
  { turn := 1,
    player0 := { player_id := 0,
                 hand := [create_card_instance "misty_knight" 0 10,
                          create_card_instance "shocker" 0 11] },
    player1 := { player_id := 1, hand := [create_card_instance "cyclops" 1 20],
                 has_priority := true },
    locations := three_locations,
    next_iid := 21 }

/-- Turn-2 state: location 0 already holds two player-0 cards (Misty
Knight iid 0, Shocker iid 1) and player 0 holds Carnage (iid 2). -/
def S8 : GameState :=
  { turn := 2,
    player0 := { player_id := 0, hand := [create_card_instance "carnage" 0 2] },
    player1 := { player_id := 1 },
    locations :=
      [{ location_id := "ruins",
         cards0 := [{ create_card_instance "misty_knight" 0 0 with location := some 0 },
                    { create_card_instance "shocker" 0 1 with location := some 0 }] },
       { location_id := "xandar" }, { location_id := "new_york" }],
    next_iid := 3 }

/-- The state after the Carnage turn resolves. -/
def R8 : GameState := exOk (process_turn S8 [(0, 0)] []) S8

/-- Turn-1 state whose player 0 holds Medusa (iid 0). -/
def SM : GameState :=
  { turn := 1,
    player0 := { player_id := 0, hand := [create_card_instance "medusa" 0 0] },
    player1 := { player_id := 1 },
    locations := three_locations,
    next_iid := 1 }

/-- The repository's `basic_deck` from the `game_engine.py` main block. -/
def basic_deck : List String :=
  ["misty_knight", "shocker", "cyclops", "the_thing", "abomination", "hulk",
   "misty_knight", "shocker", "cyclops", "the_thing", "abomination", "hulk"]

/-- A game created by `setup_game` (shuffles taken as the identity
permutation, priority to player 0). -/
def G9 : GameState := setup_game basic_deck basic_deck ["ruins", "xandar", "new_york"] 0

/-- One pass-turn invocation of `process_turn`, which always succeeds. -/
def PT (s : GameState) : GameState := exOk (process_turn s [] []) s

/-- `G9` after five pass turns: its turn counter reads 6 and the game is
over. -/
def G9_5 : GameState := PT (PT (PT (PT (PT G9))))

/-- `G9` after a sixth pass turn. -/
def G9_6 : GameState := PT G9_5

/-- State with a lone Misty Knight (iid 0) in play at location 0,
player 0's side; used to witness the ongoing-reset theorem. -/
def W10 : GameState :=
  { turn := 3,
    player0 := { player_id := 0 },
    player1 := { player_id := 1 },
    locations :=
      [{ location_id := "ruins",
         cards0 := [{ create_card_instance "misty_knight" 0 0 with
                      location := some 0, current_power := 9 }] },
       { location_id := "xandar" }, { location_id := "new_york" }],
    next_iid := 1 }

end Snap

namespace MSim

/-- A catalog card of `Marvel-snap-simulator-main`.  The card objects of
the (external) `factories.py` carry further fields; `simulator.py` reads
only `energy_cost` on this path. -/
structure CardDef where
  energy_cost : Int
deriving DecidableEq

/-- A catalog location.  The location objects come from the external
`location.py`; `can_play_to_location` only asks whether the object
defines `can_play_card(self, turn)` and calls it with the current turn,
so the object is modelled by that optional predicate. -/
structure LocationDef where
  can_play_card : Option (Int → Bool) := none

/-- The `GameState` dataclass of `simulator.py`. -/
structure SimState where
  turn : Int
  energy : Int × Int
  hand : List (List Nat)
  deck : List (List Nat)
  board : List (List (List Nat))
  location_effects : List Nat

/-- Python `state.energy[player]`; only ever indexed with 0 or 1. -/
def energy_at (e : Int × Int) (player : Nat) : Int :=
  if player = 0 then e.1 else e.2

/-- The `Action` dataclass of `simulator.py`. -/
structure Action where
  card_id : Nat
  location_id : Nat
deriving DecidableEq

/-- `get_card_cost` from `simulator.py`: `ALL_CARDS[card_id].energy_cost`
(the global pool is a parameter here).  A bad id raises in Python; the
theorems below never read the default. -/
def get_card_cost (all_cards : List CardDef) (card_id : Nat) : Int :=
  (all_cards.getD card_id ⟨0⟩).energy_cost

/-- The location-restriction part of `can_play_to_location`: the target
location's `can_play_card` predicate, when it defines one, applied to
the current turn; vacuously true otherwise. -/
def location_allows (all_locations : List LocationDef) (state : SimState) (loc : Nat) : Bool :=
  match (all_locations.getD (state.location_effects.getD loc 0) ⟨none⟩).can_play_card with
  | some pred => pred state.turn
  | none => true

/-- `can_play_to_location` from `simulator.py`: at most 4 cards per
player per location, then the location's play restriction.  The
`card_id` parameter is unused, as in the source. -/
def can_play_to_location (all_locations : List LocationDef) (card_id : Nat) (loc : Nat)
    (state : SimState) (player : Nat) : Bool :=
  if 4 ≤ ((state.board.getD loc []).getD player []).length then false
  else location_allows all_locations state loc

/-- `legal_plays` from `simulator.py`: every hand card the player can
afford, paired with every board location that accepts it. -/
def legal_plays (all_cards : List CardDef) (all_locations : List LocationDef)
    (state : SimState) (player : Nat) : List Action :=
  ((state.hand.getD player []).map (fun card_id =>
    if energy_at state.energy player < get_card_cost all_cards card_id then []
    else (List.range state.board.length).filterMap (fun loc =>
      if can_play_to_location all_locations card_id loc state player then
        some ⟨card_id, loc⟩
      else none))).flatten

/-- A card object of `ai.py` (from the external `cards.py`); the combo
step reads `energy_cost` and compares card objects for distinctness. -/
structure AICard where
  name : String
  energy_cost : Int
  power : Int
deriving DecidableEq

/-- STEP 2 of `AIPlayer.choose_plays` in `ai.py`: from the enumerated
play options, every combination (of any size, taken over positions in
the options list) that repeats no card and whose total cost fits the
energy budget.  `itertools.combinations` over all sizes enumerates
exactly the subsequences of the options list; the enumeration order is
immaterial to the membership facts proved below. -/
def choose_plays_combos (play_options : List (AICard × Nat)) (energy : Int) :
    List (List (AICard × Nat)) :=
  play_options.sublists.filter (fun combo =>
    let cards := combo.map Prod.fst
    decide cards.Nodup && decide ((cards.map (fun c => c.energy_cost)).sum ≤ energy))

end MSim

namespace Snap

lemma set_self {α : Type _} (l : List α) (i : Nat) (h : i < l.length) :
    l.set i l[i] = l := by
  apply List.ext_getElem
  · simp
  · intro j h1 h2
    rw [List.getElem_set]
    split
    · subst j; rfl
    · rfl

lemma set_player_turn (s : GameState) (pid : Nat) (P : Player) :
    (s.set_player pid P).turn = s.turn := by
  unfold GameState.set_player
  split <;> rfl

lemma updateCard_turn (s : GameState) (iid : Nat) (f : Card → Card) :
    (s.updateCard iid f).turn = s.turn := rfl

lemma on_reveal_dispatch_turn (s : GameState) (c : Card) :
    (on_reveal_dispatch s c).turn = s.turn := by
  simp only [on_reveal_dispatch, on_reveal_sentinel, on_reveal_medusa, on_reveal_carnage]
  repeat' split
  all_goals simp [set_player_turn, updateCard_turn]

lemma resolve_one_turn (s : GameState) (iid : Nat) :
    (resolve_one s iid).turn = s.turn := by
  simp only [resolve_one]
  repeat' split
  all_goals simp [updateCard_turn, on_reveal_dispatch_turn]

lemma resolve_turn (batch : List Nat) (s : GameState) :
    (resolve_on_reveal_effects s batch).turn = s.turn := by
  unfold resolve_on_reveal_effects
  induction batch generalizing s with
  | nil => rfl
  | cons a rest ih =>
    rw [List.foldl_cons, ih, resolve_one_turn]

lemma apply_ongoing_turn (s : GameState) :
    (apply_ongoing_effects s).turn = s.turn := rfl

lemma apply_plays_ok_turn (plays : List (Nat × Nat)) (s : GameState) (pid : Nat)
    (batch : List Nat) (s2 : GameState) (b2 : List Nat)
    (h : apply_plays s pid plays batch = .ok (s2, b2)) : s2.turn = s.turn := by
  induction plays generalizing s batch with
  | nil =>
    simp only [apply_plays] at h
    cases h
    rfl
  | cons pr rest ih =>
    simp only [apply_plays] at h
    split at h
    · split at h
      · rw [ih _ _ h]
        simp [set_player_turn]
      · cases h
    · cases h

lemma end_game_turn (t : GameState) : (end_game t).turn = t.turn := by
  simp only [end_game]
  split_ifs <;> rfl

lemma end_game_over (t : GameState) : (end_game t).game_over = true := by
  simp only [end_game]
  split_ifs <;> rfl

lemma end_game_winner_some (t : GameState) : (end_game t).winner.isSome = true := by
  simp only [end_game]
  split_ifs <;> rfl

lemma turn_upkeep_turn (s : GameState) : (turn_upkeep s).turn = s.turn + 1 := by
  simp only [turn_upkeep]
  split <;> simp [set_player_turn]

lemma turn_batch_ok_turn (s : GameState) (p0 p1 : List (Nat × Nat)) (t : GameState)
    (b : List Nat) (h : turn_batch s p0 p1 = .ok (t, b)) : t.turn = s.turn + 1 := by
  simp only [turn_batch] at h
  split at h
  · cases h
  · rename_i s1 batch1 heq1
    split at h
    · cases h
    · rename_i s2 batch2 heq2
      cases h
      rw [apply_plays_ok_turn _ _ _ _ _ _ heq2, apply_plays_ok_turn _ _ _ _ _ _ heq1,
        turn_upkeep_turn]

end Snap
namespace Snap

/-- C9 (amended): across `process_turn` invocations, the turn counter
strictly increases by exactly one per accepted call, and once the
post-call counter is at least 6 the game transitions to scoring:
`game_over` is set and a winner is stored.  The claimed upper bound 6
does not hold, since nothing stops a further invocation. -/
theorem process_turn_turn_step (s : GameState) (p0 p1 : List (Nat × Nat)) (s2 : GameState)
    (h : process_turn s p0 p1 = .ok s2) :
    s2.turn = s.turn + 1 ∧
      (6 ≤ s2.turn → s2.game_over = true ∧ s2.winner.isSome = true) := by
  simp only [process_turn] at h
  split at h
  · cases h
  · rename_i t batch heq
    split at h
    · cases h
      constructor
      · rw [end_game_turn, apply_ongoing_turn, resolve_turn, turn_batch_ok_turn _ _ _ _ _ heq]
      · intro _
        exact ⟨end_game_over _, end_game_winner_some _⟩
    · rename_i hle
      cases h
      constructor
      · rw [apply_ongoing_turn, resolve_turn, turn_batch_ok_turn _ _ _ _ _ heq]
      · intro hc
        exact absurd hc hle

/-- Witness for the amended C9 theorem at a concrete accepted call. -/
theorem process_turn_turn_step_check :
    G9_6.turn = G9_5.turn + 1 ∧
      (6 ≤ G9_6.turn → G9_6.game_over = true ∧ G9_6.winner.isSome = true) :=
  process_turn_turn_step G9_5 [] [] G9_6 (by rfl)

/-- C9 (counterexample): on the game `setup_game` builds from the
repository's basic deck, six successive accepted `process_turn` calls
drive the turn counter from 1 to 7 — outside the claimed range
[1, 6]. -/
theorem turn_counter_exceeds_six :
    process_turn G9 [] [] = .ok (PT G9) ∧
    process_turn (PT G9) [] [] = .ok (PT (PT G9)) ∧
    process_turn (PT (PT G9)) [] [] = .ok (PT (PT (PT G9))) ∧
    process_turn (PT (PT (PT G9))) [] [] = .ok (PT (PT (PT (PT G9)))) ∧
    process_turn (PT (PT (PT (PT G9)))) [] [] = .ok G9_5 ∧
    process_turn G9_5 [] [] = .ok G9_6 ∧
    G9.turn = 1 ∧ G9_6.turn = 7 ∧ ¬ (G9_6.turn ≤ 6) := by
  refine ⟨rfl, rfl, rfl, rfl, rfl, rfl, rfl, rfl, ?_⟩
  decide

/-- C2 (code-bug evidence): `process_turn` performs no energy
accounting.  It accepts the turn-2 submission in which player 0 plays
Hulk (current_cost 6): the energy spent that turn is 6, exceeding the
turn number 2. -/
theorem process_turn_accepts_over_budget :
    process_turn S2 [(0, 0)] [] = .ok R2 ∧
    R2.turn = 2 ∧
    (side_at R2.locations 0 0).map Card.current_cost = [6] ∧
    ¬ ((6 : Int) ≤ 2) := by
  refine ⟨rfl, rfl, rfl, ?_⟩
  decide

/-- C3 (code-bug evidence): `process_turn` performs no validation
before mutating.  Player 1 submits the out-of-range hand index 3; by
the time the `IndexError` is raised the engine has already incremented
the turn counter and placed player 0's card on location 0, so the
`GameState` is left changed rather than untouched. -/
theorem process_turn_mutates_before_raising :
    process_turn S3 [(0, 0)] [(3, 1)] = .error E3 ∧
    E3.turn = S3.turn + 1 ∧
    side_at S3.locations 0 0 = [] ∧
    (side_at E3.locations 0 0).length = 1 ∧
    E3 ≠ S3 := by
  refine ⟨rfl, rfl, rfl, rfl, ?_⟩
  decide

/-- C4 (code-bug evidence): the merged on-reveal batch ignores the
priority policy.  With priority held by player 1, the batch for player
0's submission [(0,0), (1,0)] and player 1's [(0,0)] is [11, 10, 20]:
player 0's cards come first regardless of priority, and within the
player they follow descending hand index (11 before 10), not
submission order.  The claimed policy would produce [20, 10, 11]. -/
theorem reveal_batch_ignores_priority :
    S4.player1.has_priority = true ∧
    S4.player0.has_priority = false ∧
    (turn_batch S4 [(0, 0), (1, 0)] [(0, 0)]).map Prod.snd = .ok [11, 10, 20] ∧
    [11, 10, 20] ≠ [20, 10, 11] := by
  refine ⟨rfl, rfl, rfl, ?_⟩
  decide

/-- C8 (code-bug evidence): in the Carnage scenario the two other
cards do reach the owner's discard pile and the owner's count at the
location becomes 1, but after the turn resolves Carnage's
current_power is 2 (its base), not 2 + 2 * 2: the +4 on-reveal bonus
is wiped by the ongoing recomputation at the end of the same turn. -/
theorem carnage_bonus_not_preserved :
    process_turn S8 [(0, 0)] [] = .ok R8 ∧
    R8.player0.discard.map Card.card_id = ["misty_knight", "shocker"] ∧
    (side_at R8.locations 0 0).map (fun c => (c.card_id, c.current_power)) = [("carnage", 2)] ∧
    (2 : Int) ≠ 2 + 2 * 2 := by
  refine ⟨rfl, rfl, rfl, ?_⟩
  decide

end Snap

namespace MSim

/-- C7: a combo is enumerated by the combo-building step of
`AIPlayer.choose_plays` iff it is a subset (a subsequence) of the
enumerated play options — the empty combo included — in which no card
appears twice and whose total energy cost is at most the energy
budget. -/
theorem choose_plays_combos_mem_iff (options : List (AICard × Nat)) (energy : Int)
    (combo : List (AICard × Nat)) :
    combo ∈ choose_plays_combos options energy ↔
      combo.Sublist options ∧ (combo.map Prod.fst).Nodup ∧
        ((combo.map Prod.fst).map (fun c => c.energy_cost)).sum ≤ energy := by
  simp [choose_plays_combos, List.mem_filter, List.mem_sublists, and_assoc]

end MSim
namespace Snap

/-- C1: the outcome `GameEngine.end_game` stores follows the win rule:
reading location powers through `calculate_location_power` on the
rescored state, a strictly greater sum wins a location, the player
winning strictly more locations wins the game, a tie is broken by the
strictly greater total power over all locations, and a remaining tie
is stored as a draw (-1). -/
theorem end_game_follows_win_rule (s : GameState) :
    (end_game s).winner = some (spec_outcome (apply_ongoing_effects s).locations).code ∧
    (end_game s).game_over = true := by
  simp only [end_game, spec_outcome, locations_won, wins_location, total_power,
    List.countP_eq_length_filter, apply_ongoing_effects, Nat.sub_zero, Nat.sub_self]
  split_ifs <;> simp [Outcome.code]

lemma reset_card_idem (c : Card) : reset_card (reset_card c) = reset_card c := by
  cases c
  rfl

lemma reset_card_power (c : Card) (v : Int) :
    reset_card { c with current_power := v } = reset_card c := by
  cases c
  rfl

lemma reset_loc_idem (loc : Location) : reset_loc (reset_loc loc) = reset_loc loc := by
  cases loc
  simp [reset_loc, List.map_map, Function.comp_def, reset_card_idem]

lemma cards_reset_loc (loc : Location) (p : Nat) :
    (reset_loc loc).cards p = (loc.cards p).map reset_card := by
  unfold reset_loc Location.cards
  split <;> rfl

lemma set_cards_self (loc : Location) (p : Nat) :
    loc.set_cards p (loc.cards p) = loc := by
  unfold Location.set_cards Location.cards
  split <;> rfl

lemma reset_loc_set_cards (loc : Location) (p : Nat) (cs : List Card) :
    reset_loc (loc.set_cards p cs) = (reset_loc loc).set_cards p (cs.map reset_card) := by
  unfold Location.set_cards reset_loc
  split <;> rfl

lemma reset_powers_set (L : List Location) (i : Nat) (h : i < L.length) (loc2 : Location)
    (hr : reset_loc loc2 = reset_loc (L.get ⟨i, h⟩)) :
    reset_powers (L.set i loc2) = reset_powers L := by
  unfold reset_powers
  rw [List.map_set, hr]
  have hge : (L.map reset_loc).get ⟨i, by simpa using h⟩ = reset_loc (L.get ⟨i, h⟩) := by
    simp
  rw [← hge]
  exact set_self _ _ (by simpa using h)

lemma reset_powers_ongoing_step (L : List Location) (c : Card) :
    reset_powers (ongoing_step L c) = reset_powers L := by
  unfold ongoing_step captain_america_effect
  split
  · split
    · rfl
    · rename_i l
      split
      · rename_i h
        apply reset_powers_set _ _ h
        rw [reset_loc_set_cards, List.map_map]
        have hmap : ∀ cs : List Card,
            cs.map (reset_card ∘ fun o => if o.iid = c.iid then o
              else { o with current_power := o.current_power + 1 }) = cs.map reset_card := by
          intro cs
          apply List.map_congr_left
          intro a _
          simp only [Function.comp_apply]
          split
          · rfl
          · exact reset_card_power a _
        rw [hmap, ← cards_reset_loc, set_cards_self]
      · rfl
  · rfl

lemma reset_powers_idem (L : List Location) :
    reset_powers (reset_powers L) = reset_powers L := by
  unfold reset_powers
  rw [List.map_map]
  apply List.map_congr_left
  intro a _
  exact reset_loc_idem a

lemma reset_powers_foldl (cs : List Card) (L : List Location) :
    reset_powers (cs.foldl ongoing_step L) = reset_powers L := by
  induction cs generalizing L with
  | nil => rfl
  | cons c rest ih =>
    rw [List.foldl_cons, ih, reset_powers_ongoing_step]

lemma ongoing_locations_idem (L : List Location) :
    ongoing_locations (ongoing_locations L) = ongoing_locations L := by
  conv_lhs => rw [ongoing_locations]
  rw [show reset_powers (ongoing_locations L) = reset_powers L by
    rw [ongoing_locations]
    rw [reset_powers_foldl, reset_powers_idem]]
  rw [ongoing_locations]

/-- C5: `apply_ongoing_effects` is idempotent — a second consecutive
invocation with no intervening board change returns the state
unchanged, so every in-play card shows identical current_power values
both times. -/
theorem apply_ongoing_idempotent (s : GameState) :
    apply_ongoing_effects (apply_ongoing_effects s) = apply_ongoing_effects s := by
  unfold apply_ongoing_effects
  simp [ongoing_locations_idem]

end Snap
namespace Snap

lemma length_ongoing_step (L : List Location) (c : Card) :
    (ongoing_step L c).length = L.length := by
  unfold ongoing_step captain_america_effect
  repeat' split
  all_goals simp

lemma cards_same_side (loc : Location) (o p : Nat) (h : (o = 0) ↔ (p = 0)) :
    loc.cards o = loc.cards p := by
  unfold Location.cards
  by_cases ho : o = 0 <;> by_cases hp : p = 0 <;> simp_all

lemma cards_set_cards (loc : Location) (o p : Nat) (cs : List Card) :
    (loc.set_cards o cs).cards p = if (o = 0) ↔ (p = 0) then cs else loc.cards p := by
  unfold Location.set_cards Location.cards
  by_cases ho : o = 0 <;> by_cases hp : p = 0 <;> simp [ho, hp]

lemma side_at_set_ne (L : List Location) (i l p : Nat) (loc2 : Location) (h : i ≠ l) :
    side_at (L.set i loc2) l p = side_at L l p := by
  simp [side_at, List.getD, List.getElem?_set_ne h]

lemma side_at_set_eq (L : List Location) (l p : Nat) (loc2 : Location) (h : l < L.length) :
    side_at (L.set l loc2) l p = loc2.cards p := by
  simp [side_at, List.getD, List.getElem?_set_self, h]

lemma side_at_getD (L : List Location) (l p : Nat) (h : l < L.length) :
    side_at L l p = (L.get ⟨l, h⟩).cards p := by
  simp [side_at, List.getD, List.getElem?_eq_getElem h]

lemma side_at_ongoing_step (L : List Location) (l p : Nat) (hl : l < L.length) (c : Card) :
    side_at (ongoing_step L c) l p
      = if targets_side c l p then
          (side_at L l p).map (fun o => if o.iid = c.iid then o
            else { o with current_power := o.current_power + 1 })
        else side_at L l p := by
  unfold ongoing_step captain_america_effect
  by_cases hc : c.card_id = "captain_america"
  case neg =>
    rw [if_neg hc, if_neg (fun ht => hc ht.1)]
  case pos =>
    rw [if_pos hc]
    cases hloc : c.location with
    | none =>
      dsimp only
      rw [if_neg (fun ht => by
        have h2 : c.location = some l := ht.2.1
        rw [hloc] at h2
        exact Option.noConfusion h2)]
    | some l2 =>
      dsimp only
      by_cases hl2 : l2 < L.length
      · rw [dif_pos hl2]
        by_cases hll : l2 = l
        · subst hll
          rw [side_at_set_eq _ _ _ _ hl, cards_set_cards]
          by_cases ho : (c.owner = 0) ↔ (p = 0)
          · rw [if_pos ho, if_pos ⟨hc, hloc, ho⟩, side_at_getD _ _ _ hl,
              cards_same_side _ _ _ ho]
          · rw [if_neg ho, if_neg (fun ht => ho ht.2.2), side_at_getD _ _ _ hl]
        · rw [side_at_set_ne _ _ _ _ _ hll,
            if_neg (fun ht => by
              have h2 : c.location = some l := ht.2.1
              rw [hloc] at h2
              exact hll (Option.some_injective _ h2))]
      · rw [dif_neg hl2,
          if_neg (fun ht => by
            have h2 : c.location = some l := ht.2.1
            rw [hloc] at h2
            exact hl2 ((Option.some_injective _ h2) ▸ hl))]

lemma bump_power_zero (c : Card) : bump_power 0 c = c := by
  simp [bump_power]

lemma side_at_foldl_ongoing (cs : List Card) (L : List Location) (l p : Nat)
    (hl : l < L.length) :
    side_at (cs.foldl ongoing_step L) l p
      = (side_at L l p).map (fun o => bump_power (captain_count cs l p o.iid) o) := by
  induction cs generalizing L with
  | nil =>
    simp only [List.foldl_nil, captain_count, List.countP_nil]
    rw [List.map_congr_left (fun a _ => bump_power_zero a)]
    exact (List.map_id' _).symm
  | cons c rest ih =>
    rw [List.foldl_cons, ih _ (by rw [length_ongoing_step]; exact hl),
      side_at_ongoing_step L l p hl c]
    by_cases ht : targets_side c l p
    · rw [if_pos ht, List.map_map]
      apply List.map_congr_left
      intro a _
      simp only [Function.comp_apply]
      by_cases hiid : a.iid = c.iid
      · rw [if_pos hiid]
        have hcnt : captain_count (c :: rest) l p a.iid = captain_count rest l p a.iid := by
          simp [captain_count, List.countP_cons, hiid]
        rw [hcnt]
      · rw [if_neg hiid]
        have hcnt : captain_count (c :: rest) l p a.iid
            = captain_count rest l p a.iid + 1 := by
          simp [captain_count, List.countP_cons, ht, Ne.symm hiid]
        rw [hcnt]
        simp only [bump_power]
        congr 1
        push_cast
        ring
    · rw [if_neg ht]
      apply List.map_congr_left
      intro a _
      have hcnt : captain_count (c :: rest) l p a.iid = captain_count rest l p a.iid := by
        simp [captain_count, List.countP_cons, ht]
      rw [hcnt]

lemma side_at_reset (L : List Location) (l p : Nat) (hl : l < L.length) :
    side_at (reset_powers L) l p = (side_at L l p).map reset_card := by
  unfold reset_powers
  rw [side_at_getD _ l p (by simpa using hl), side_at_getD _ l p hl]
  have hget : (List.map reset_loc L).get ⟨l, by simpa using hl⟩
      = reset_loc (L.get ⟨l, hl⟩) := by
    simp
  rw [hget, cards_reset_loc]

lemma in_play_reset (L : List Location) :
    in_play_cards (reset_powers L) = (in_play_cards L).map reset_card := by
  induction L with
  | nil => rfl
  | cons loc rest ih =>
    show (reset_loc loc).cards0 ++ (reset_loc loc).cards1 ++ in_play_cards (reset_powers rest)
      = ((loc.cards0 ++ loc.cards1 ++ in_play_cards rest).map reset_card)
    rw [ih]
    simp [reset_loc, List.map_append]

lemma captain_count_reset (cs : List Card) (l p iid : Nat) :
    captain_count (cs.map reset_card) l p iid = captain_count cs l p iid := by
  unfold captain_count
  rw [List.countP_map]
  rfl

lemma mem_in_play (L : List Location) (d : Card) (hd : d ∈ in_play_cards L) :
    ∃ l2, ∃ _ : l2 < L.length, ∃ p2, p2 < 2 ∧ d ∈ side_at L l2 p2 := by
  induction L with
  | nil => cases hd
  | cons loc rest ih =>
    have hd2 : d ∈ loc.cards0 ++ loc.cards1 ++ in_play_cards rest := hd
    rcases List.mem_append.mp hd2 with h01 | hrest
    · rcases List.mem_append.mp h01 with h0 | h1
      · exact ⟨0, by simp, 0, by omega, h0⟩
      · exact ⟨0, by simp, 1, by omega, h1⟩
    · rcases ih hrest with ⟨l2, hl2, p2, hp2, hmem⟩
      refine ⟨l2 + 1, by simpa using hl2, p2, hp2, ?_⟩
      simpa [side_at, List.getD] using hmem

lemma getD_of_lt {α : Type _} (L : List α) (i : Nat) (d : α) (h : i < L.length) :
    L.getD i d = L.get ⟨i, h⟩ := by
  simp [List.getD, List.getElem?_eq_getElem h]

lemma ongoing_power_formula (s : GameState) (l p i : Nat) (hl : l < s.locations.length)
    (hi : i < (side_at s.locations l p).length) :
    ((side_at (apply_ongoing_effects s).locations l p).getD i no_card).current_power
      = ((side_at s.locations l p).getD i no_card).base_power
        + (captain_count (in_play_cards s.locations) l p
            ((side_at s.locations l p).getD i no_card).iid : Int) := by
  have hL : (apply_ongoing_effects s).locations = ongoing_locations s.locations := rfl
  rw [hL]
  simp only [ongoing_locations]
  rw [side_at_foldl_ongoing _ _ l p (by simpa [reset_powers] using hl),
    side_at_reset _ _ _ hl, in_play_reset]
  simp only [captain_count_reset]
  rw [List.map_map]
  rw [getD_of_lt _ _ _ (by simpa using hi), getD_of_lt _ _ _ hi]
  simp [bump_power, reset_card]

/-- C10: `apply_ongoing_effects` recomputes every in-play power from
base_power.  Under consistent card fields, a card not targeted by any
ongoing effect (no other same-side Captain America at its location)
ends the call with current_power equal to base_power regardless of the
power it carried before; and (second conjunct) Medusa's on-reveal +2
at the middle location does not survive the ongoing recomputation run
later in the same `process_turn`. -/
theorem ongoing_recompute_resets_untargeted (s : GameState)
    (hcons : ∀ l, l < s.locations.length → ∀ p, p < 2 →
      ∀ c ∈ side_at s.locations l p, c.location = some l ∧ c.owner = p)
    (l p i : Nat) (hl : l < s.locations.length) (hp : p < 2)
    (hi : i < (side_at s.locations l p).length)
    (hnot : ∀ j, j < (side_at s.locations l p).length → j ≠ i →
      ((side_at s.locations l p).getD j no_card).card_id ≠ "captain_america") :
    ((side_at (apply_ongoing_effects s).locations l p).getD i no_card).current_power
      = ((side_at s.locations l p).getD i no_card).base_power ∧
    (Except.map (fun st => (side_at st.locations 1 0).map
        (fun c => (c.card_id, c.current_power))) (process_turn SM [(0, 1)] []))
      = .ok [("medusa", 2)] := by
  refine ⟨?_, by rfl⟩
  rw [ongoing_power_formula s l p i hl hi]
  have hzero : captain_count (in_play_cards s.locations) l p
      (((side_at s.locations l p).getD i no_card)).iid = 0 := by
    unfold captain_count
    rw [List.countP_eq_zero]
    intro d hd hcond2
    have hcond := of_decide_eq_true hcond2
    obtain ⟨ht, hne⟩ := hcond
    obtain ⟨l2, hl2, p2, hp2, hmem⟩ := mem_in_play _ _ hd
    obtain ⟨hcl, how⟩ := hcons l2 hl2 p2 hp2 d hmem
    have hl2l : l2 = l := Option.some_injective _ (hcl.symm.trans ht.2.1)
    subst hl2l
    have hiff : (p2 = 0) ↔ (p = 0) := how ▸ ht.2.2
    have hp2p : p2 = p := by omega
    subst hp2p
    obtain ⟨j, hj, hdj⟩ := List.mem_iff_getElem.mp hmem
    by_cases hji : j = i
    · subst hji
      apply hne
      rw [← hdj, getD_of_lt _ _ _ hj]
      rfl
    · apply hnot j hj hji
      rw [getD_of_lt _ _ _ hj,
        show (side_at s.locations _ _).get ⟨j, hj⟩ = d from hdj]
      exact ht.1
  rw [hzero]
  simp

/-- Witness for the C10 theorem at a concrete in-play card. -/
theorem ongoing_recompute_resets_untargeted_check :
    ((side_at (apply_ongoing_effects W10).locations 0 0).getD 0 no_card).current_power
      = ((side_at W10.locations 0 0).getD 0 no_card).base_power ∧
    (Except.map (fun st => (side_at st.locations 1 0).map
        (fun c => (c.card_id, c.current_power))) (process_turn SM [(0, 1)] []))
      = .ok [("medusa", 2)] :=
  ongoing_recompute_resets_untargeted W10 (by decide) 0 0 0 (by decide) (by decide)
    (by decide) (by decide)

end Snap

namespace MSim

/-- C6: a (card, location) pair is in `legal_plays` iff the card is in
the player's hand, its cost is at most the player's remaining energy,
the location is one of the board's locations, the player's card count
at that location is strictly below 4, and the location's
play-restriction predicate (when the location defines one) accepts the
current turn. -/
theorem legal_plays_mem_iff (all_cards : List CardDef) (all_locations : List LocationDef)
    (state : SimState) (player : Nat) (cid loc : Nat) :
    Action.mk cid loc ∈ legal_plays all_cards all_locations state player ↔
      (cid ∈ state.hand.getD player [] ∧
        get_card_cost all_cards cid ≤ energy_at state.energy player ∧
        loc < state.board.length ∧
        ((state.board.getD loc []).getD player []).length < 4 ∧
        location_allows all_locations state loc = true) := by
  unfold legal_plays can_play_to_location
  simp only [List.mem_flatten, List.mem_map]
  constructor
  · rintro ⟨inner, ⟨c2, hc2, rfl⟩, hmem⟩
    by_cases hcost : energy_at state.energy player < get_card_cost all_cards c2
    · rw [if_pos hcost] at hmem
      cases hmem
    · rw [if_neg hcost] at hmem
      obtain ⟨loc2, hloc2, hsome⟩ := List.mem_filterMap.mp hmem
      rw [Option.ite_none_right_eq_some] at hsome
      obtain ⟨hcond, heq⟩ := hsome
      injection heq with h0
      injection h0 with h1 h2
      subst h1
      subst h2
      by_cases hocc : 4 ≤ ((state.board.getD loc2 []).getD player []).length
      · rw [if_pos hocc] at hcond
        simp at hcond
      · rw [if_neg hocc] at hcond
        exact ⟨hc2, not_lt.mp hcost, List.mem_range.mp hloc2, not_le.mp hocc, hcond⟩
  · rintro ⟨hhand, hcost, hloc, hocc, hallow⟩
    have hcond : (if 4 ≤ ((state.board.getD loc []).getD player []).length then false
        else location_allows all_locations state loc) = true := by
      rw [if_neg (not_le.mpr hocc)]
      exact hallow
    refine ⟨_, ⟨cid, hhand, rfl⟩, ?_⟩
    rw [if_neg (not_lt.mpr hcost)]
    exact List.mem_filterMap.mpr ⟨loc, List.mem_range.mpr hloc, by rw [if_pos hcond]⟩

end MSim
